import Mathlib

/-!
Verification of the BCBSAL portal integration (`bcbsal_integration.py`).

This file gives a shallow embedding of the pure logic of the integration
class: the response classifier (`_handle_response`), the form-error scanner
(`_scan_form_errors`), the benefit-table parser (`_parse_insurance_table`),
the script-JSON extractor (`_extract_script_json`), the pre-service catalog
lookup inside `_get_pre_service_data`, and the pre-service phase of
`get_coverage_data`.

Conventions of the embedding:
* Python strings are Lean `String`s; `str.strip()` is `pstrip`, substring
  tests (`"x" in s`) are `hasSubstr`.
* Python dicts (which preserve insertion order) are association lists
  `List (String × _)`; `d[k] = v` is `dset` (replace in place or append at
  the end), `d[k]` is `dlookup` (a failed lookup is a `KeyError`).
* BeautifulSoup elements are flattened to the fields the code actually
  reads: a `find(...)` that can return `None` becomes an `Option`, and the
  texts reached through an element are carried as `String` fields.
* Fallible code returns `Except`; exceptions the Python code does not
  catch (`KeyError`, `AttributeError`, JSON decoding in the non-200
  branch) are explicit error values.
-/

set_option autoImplicit false

namespace BcbsAl

/-! ## Python string primitives -/

/-- Characters removed by Python `str.strip()` with no argument. -/
def pyWs (c : Char) : Bool :=
  c = ' ' || c = '\t' || c = '\n' || c = '\r' || c.toNat = 11 || c.toNat = 12

/-- Python `str.strip()`. -/
def pstrip (s : String) : String :=
  ⟨((s.data.dropWhile pyWs).reverse.dropWhile pyWs).reverse⟩

/-- Prefix test on character lists (Boolean, by structural recursion). -/
def listIsPre : List Char → List Char → Bool
  | [], _ => true
  | _ :: _, [] => false
  | a :: as, b :: bs => a = b && listIsPre as bs

/-- Substring occurrence test on character lists. -/
def listHasSub (pat : List Char) : List Char → Bool
  | [] => listIsPre pat []
  | l@(_ :: tl) => listIsPre pat l || listHasSub pat tl

/-- Python `pat in s` substring test. -/
def hasSubstr (s pat : String) : Bool :=
  listHasSub pat.data s.data

/-- Python `str.upper()` (ASCII behaviour). -/
def pyUpper (s : String) : String :=
  ⟨s.data.map Char.toUpper⟩

/-- `"\n".join(items)`. -/
def joinNewlines : List String → String
  | [] => ""
  | [s] => s
  | s :: rest => s ++ "\n" ++ joinNewlines rest

/-! ## Python dicts as insertion-ordered association lists -/

/-- Python `d[k]` as an `Option` (a `none` here is a `KeyError` site). -/
def dlookup {α : Type} : List (String × α) → String → Option α
  | [], _ => none
  | (k, v) :: rest, key => if k = key then some v else dlookup rest key

/-- Python `d[k] = v`: replace in place when the key exists, else append. -/
def dset {α : Type} : List (String × α) → String → α → List (String × α)
  | [], key, v => [(key, v)]
  | (k, w) :: rest, key, v =>
      if k = key then (k, v) :: rest else (k, w) :: dset rest key v

/-! ## The benefit-table model

`_parse_insurance_table` reads, for each `div.eb-row` of the panel, a fixed
set of `row.find('span', class_=...)` results.  A `SpanCol` is such a span,
flattened to the data the code reads from it: the raw `.text` of each inner
`div.fonteb` (in document order), the raw `.text` of the whole span, and
the `li` texts of its first `ul` when it has one. -/

structure SpanCol where
  fontebDivs : List String
  fullText : String
  ulItems : Option (List String)
deriving DecidableEq, Repr

/-- One `div.eb-row`, flattened to the six/seven `find` results the parser
performs on it (`None` when the row has no span with that class):
`span.table-div.EBInfoCdbordertop`, `span.table-div.EBInfoCd`,
a span whose class contains `NetworkType`, `CovgLevelCd`, `QtyQualCd`,
`Quantity`, `PrecertCd`, and `Messages` respectively. -/
structure EbRow where
  sectionColTop : Option SpanCol := none
  sectionColPlain : Option SpanCol := none
  networkCol : Option SpanCol := none
  covgLevelCol : Option SpanCol := none
  qtyQualCol : Option SpanCol := none
  quantityCol : Option SpanCol := none
  precertCol : Option SpanCol := none
  messagesCol : Option SpanCol := none
deriving DecidableEq, Repr

/-- The per-row `data` dict built by `_parse_insurance_table` (its keys are
fixed, so it is a structure of optional fields; `none` = key absent). -/
structure RowData where
  program : Option String := none
  amount : Option String := none
  percentage : Option String := none
  frequency : Option String := none
  precertification : Option String := none
  benefit_begin : Option String := none
  notes : Option (List String) := none
deriving DecidableEq, Repr

/-- Python `if data:` — the dict is non-empty. -/
def RowData.isEmptyD (d : RowData) : Bool :=
  d.program.isNone && d.amount.isNone && d.percentage.isNone &&
  d.frequency.isNone && d.precertification.isNone &&
  d.benefit_begin.isNone && d.notes.isNone

abbrev EntryList := List RowData
abbrev SubsecMap := List (String × EntryList)
abbrev SectionMap := List (String × SubsecMap)
abbrev CoverageResult := List (String × SectionMap)

/-- Python exceptions that `_parse_insurance_table` can actually hit:
`KeyError` from a missing dict key, `AttributeError` from calling a method
on `None`. -/
inductive PyErr where
  | keyError
  | attributeError
deriving DecidableEq, Repr

/-- The mutable locals of the parsing loop. -/
structure ParseState where
  result : CoverageResult
  curSection : Option String
  curSubsection : Option String
  curSubsection2 : Option String
deriving Repr

def initState : ParseState := ⟨[], none, none, none⟩

/-- `row.find('span', class_='table-div EBInfoCdbordertop') or
row.find('span', class_='table-div EBInfoCd')` (Python `or`: first
non-`None` tag). -/
def sectionColOf (row : EbRow) : Option SpanCol :=
  match row.sectionColTop with
  | some sp => some sp
  | none => row.sectionColPlain

/-- The usable section label of a row: the stripped text of the first
`div.fonteb` of the section column, when that column, that div, and the
non-empty text all exist (lines 353–359). -/
def sectionLabel (row : EbRow) : Option String :=
  match sectionColOf row with
  | none => none
  | some sp =>
    match sp.fontebDivs with
    | [] => none
    | t :: _ => let s := pstrip t; if s = "" then none else some s

/-- The usable subsection label: same extraction on the `NetworkType`
column (lines 372–376). -/
def subsectionLabel (row : EbRow) : Option String :=
  match row.networkCol with
  | none => none
  | some sp =>
    match sp.fontebDivs with
    | [] => none
    | t :: _ => let s := pstrip t; if s = "" then none else some s

/-- `divs[0]` of the `CovgLevelCd` column when non-empty after stripping
(lines 391–395). -/
def subsection2Text (row : EbRow) : Option String :=
  match row.covgLevelCol with
  | none => none
  | some sp =>
    match sp.fontebDivs with
    | [] => none
    | t :: _ => let s := pstrip t; if s = "" then none else some s

/-- `divs[1]` of the `CovgLevelCd` column when present and non-empty after
stripping (lines 397–399). -/
def programText (row : EbRow) : Option String :=
  match row.covgLevelCol with
  | none => none
  | some sp =>
    match sp.fontebDivs with
    | _ :: t :: _ => let s := pstrip t; if s = "" then none else some s
    | _ => none

/-- Lines 356–365: when the row carries a section label, record it,
create the section's (empty) entry in the result if new, and reset the
subsection and sub-group state. -/
def sectionStage (st : ParseState) (row : EbRow) : ParseState :=
  match sectionLabel row with
  | none => st
  | some s =>
    { result := if (dlookup st.result s).isSome then st.result
                else dset st.result s []
      curSection := some s
      curSubsection := none
      curSubsection2 := none }

/-- Lines 372–380: when the row carries a subsection label, record it,
create its (empty) entry under the current section if new, and reset the
sub-group state.  The Python code indexes `result[current_section]`, so a
missing current section or section key is a `KeyError`. -/
def subsectionStage (st : ParseState) (row : EbRow) : Except PyErr ParseState :=
  match subsectionLabel row with
  | none => .ok st
  | some t =>
    match st.curSection with
    | none => .error .keyError
    | some s =>
      match dlookup st.result s with
      | none => .error .keyError
      | some sec =>
        match dlookup sec t with
        | some _ => .ok { st with curSubsection := some t, curSubsection2 := none }
        | none => .ok { st with
            result := dset st.result s (dset sec t [])
            curSubsection := some t
            curSubsection2 := none }

/-- Lines 401–405: when the row carries a sub-group (`subsection2`) label,
record it and create its (empty) list under the current section and
subsection if new. -/
def sub2Stage (st : ParseState) (row : EbRow) : Except PyErr ParseState :=
  match subsection2Text row with
  | none => .ok st
  | some x =>
    match st.curSection, st.curSubsection with
    | some s, some ss =>
      match dlookup st.result s with
      | none => .error .keyError
      | some sec =>
        match dlookup sec ss with
        | none => .error .keyError
        | some sub =>
          match dlookup sub x with
          | some _ => .ok { st with curSubsection2 := some x }
          | none => .ok { st with
              result := dset st.result s (dset sec ss (dset sub x []))
              curSubsection2 := some x }
    | _, _ => .error .keyError

/-- Lines 415–423: the `QtyQualCd` column; every non-blank `div.fonteb`
whose raw text contains `$` sets `amount`, else one containing `%` sets
`percentage` (later divs overwrite earlier ones). -/
def qtyData (row : EbRow) (d : RowData) : RowData :=
  match row.qtyQualCol with
  | none => d
  | some sp =>
    sp.fontebDivs.foldl
      (fun d t =>
        if pstrip t ≠ "" then
          if t.data.contains '$' then { d with amount := some (pstrip t) }
          else if t.data.contains '%' then { d with percentage := some (pstrip t) }
          else d
        else d) d

/-- Lines 426–430: the `Quantity` column's whole stripped text becomes
`frequency` when non-empty. -/
def freqData (row : EbRow) (d : RowData) : RowData :=
  match row.quantityCol with
  | none => d
  | some sp =>
    let ft := pstrip sp.fullText
    if ft ≠ "" then { d with frequency := some (pstrip ft) } else d

/-- Lines 433–444: the `PrecertCd` column; its first `div.fonteb` stripped
text becomes `precertification`, and the whole column text becomes
`benefit_begin` when non-empty and containing `"Benefit Begin"`. -/
def precertData (row : EbRow) (d : RowData) : RowData :=
  match row.precertCol with
  | none => d
  | some sp =>
    let d1 :=
      match sp.fontebDivs with
      | [] => d
      | t :: _ =>
        let pt := pstrip t
        if pt ≠ "" then { d with precertification := some pt } else d
    let bt := pstrip sp.fullText
    if bt ≠ "" && hasSubstr bt "Benefit Begin" then
      { d1 with benefit_begin := some bt }
    else d1

/-- Lines 447–455: the `Messages` column; the non-blank stripped `li`
texts of its `ul` become `notes` when any exist. -/
def messagesData (row : EbRow) (d : RowData) : RowData :=
  match row.messagesCol with
  | none => d
  | some sp =>
    match sp.ulItems with
    | none => d
    | some lis =>
      let ms := lis.filterMap
        (fun t => let s := pstrip t; if s = "" then none else some s)
      if ms ≠ [] then { d with notes := some ms } else d

/-- Lines 408–455: the `data` dict a row contributes. -/
def rowData (row : EbRow) : RowData :=
  let d : RowData := {}
  let d := match programText row with
    | none => d
    | some p => { d with program := some p }
  let d := qtyData row d
  let d := freqData row d
  let d := precertData row d
  messagesData row d

/-- Lines 457–467: insert the row's `data` (when non-empty) under the
current sub-group, or under `program_text`/`"Other"` when there is no
current sub-group. -/
def insertStage (st : ParseState) (row : EbRow) : Except PyErr ParseState :=
  if (rowData row).isEmptyD then .ok st
  else
    match st.curSection, st.curSubsection with
    | some s, some ss =>
      match dlookup st.result s with
      | none => .error .keyError
      | some sec =>
        match dlookup sec ss with
        | none => .error .keyError
        | some sub =>
          match st.curSubsection2 with
          | some x =>
            match dlookup sub x with
            | none => .error .keyError
            | some lst =>
              .ok { st with
                result := dset st.result s (dset sec ss (dset sub x (lst ++ [rowData row]))) }
          | none =>
            .ok { st with
              result := dset st.result s (dset sec ss (dset sub ((programText row).getD "Other")
                ((dlookup sub ((programText row).getD "Other")).getD [] ++ [rowData row]))) }
    | _, _ => .error .keyError

/-- One iteration of the row loop (lines 351–467), including the two
`continue` guards: rows with no current section are skipped after the
section stage, and rows with no current subsection are skipped after the
subsection stage. -/
def processRow (st : ParseState) (row : EbRow) : Except PyErr ParseState :=
  let st1 := sectionStage st row
  match st1.curSection with
  | none => .ok st1
  | some _ =>
    match subsectionStage st1 row with
    | .error e => .error e
    | .ok st2 =>
      match st2.curSubsection with
      | none => .ok st2
      | some _ =>
        match sub2Stage st2 row with
        | .error e => .error e
        | .ok st3 => insertStage st3 row

/-- The row loop over the whole table (line 351). -/
def parseRows : ParseState → List EbRow → Except PyErr ParseState
  | st, [] => .ok st
  | st, r :: rs =>
    match processRow st r with
    | .error e => .error e
    | .ok st' => parseRows st' rs

/-- `_parse_insurance_table` on an actual table element, modelled by the
list of its `div.eb-row` rows (the `find_all` result) in document order. -/
def parseInsuranceTable (rows : List EbRow) : Except PyErr CoverageResult :=
  (parseRows initState rows).map (fun st => st.result)

/-- `_parse_insurance_table` as called from `get_coverage_data`: the
argument is a `select_one` result, so it may be `None`, in which case
`None.find_all(...)` on line 341 raises `AttributeError`. -/
def parseInsuranceTableOpt : Option (List EbRow) → Except PyErr CoverageResult
  | none => .error .attributeError
  | some rows => parseInsuranceTable rows

/-! ## A model of JSON values and of `json.loads`

The `json` library is not part of the repository; `jsonLoads` below is a
model of `json.loads` covering the JSON subset the integration exchanges:
`null`, booleans, integer numbers, strings with the single-character
escapes, arrays and objects.  (Floats, `\u` escapes and the strictness
checks on control characters and leading zeros are out of the model.)
A `none` result is a raised `json.JSONDecodeError`. -/

inductive Json where
  | null
  | bool (b : Bool)
  | num (n : Int)
  | str (s : String)
  | arr (elems : List Json)
  | obj (fields : List (String × Json))

/-- The single-quote character (spelled by code point). -/
def squote : Char := Char.ofNat 39

/-- The double-quote character. -/
def dquote : Char := Char.ofNat 34

/-- The opening-brace character. -/
def lbrace : Char := Char.ofNat 123

/-- The closing-brace character. -/
def rbrace : Char := Char.ofNat 125

/-- JSON insignificant whitespace. -/
def jsonWs (c : Char) : Bool :=
  c = ' ' || c = '\t' || c = '\n' || c = '\r'

def skipWs (l : List Char) : List Char :=
  l.dropWhile jsonWs

/-- Body of a JSON string after the opening quote: returns the decoded
string and the input after the closing quote. -/
def parseStrBody : List Char → List Char → Option (String × List Char)
  | acc, c :: rest =>
    if c = dquote then some (⟨acc.reverse⟩, rest)
    else if c = '\\' then
      match rest with
      | e :: rest2 =>
        if e = dquote then parseStrBody (dquote :: acc) rest2
        else if e = '\\' then parseStrBody ('\\' :: acc) rest2
        else if e = '/' then parseStrBody ('/' :: acc) rest2
        else if e = 'b' then parseStrBody (Char.ofNat 8 :: acc) rest2
        else if e = 'f' then parseStrBody (Char.ofNat 12 :: acc) rest2
        else if e = 'n' then parseStrBody ('\n' :: acc) rest2
        else if e = 'r' then parseStrBody ('\r' :: acc) rest2
        else if e = 't' then parseStrBody ('\t' :: acc) rest2
        else none
      | [] => none
    else parseStrBody (c :: acc) rest
  | _, [] => none

def digitVal (c : Char) : Nat := c.toNat - 48

def parseDigits : Nat → List Char → Nat × List Char
  | n, c :: rest =>
    if c.isDigit then parseDigits (n * 10 + digitVal c) rest else (n, c :: rest)
  | n, [] => (n, [])

/-- An integer JSON number (a following `.`, `e` or `E` would make it a
float, which the model rejects). -/
def parseNum (l : List Char) : Option (Int × List Char) :=
  let (neg, l1) := match l with
    | c :: rest => if c = '-' then (true, rest) else (false, l)
    | [] => (false, l)
  match l1 with
  | c :: _ =>
    if c.isDigit then
      let (n, rest) := parseDigits 0 l1
      match rest with
      | d :: _ => if d = '.' || d = 'e' || d = 'E' then none
                  else some (if neg then -(n : Int) else (n : Int), rest)
      | [] => some (if neg then -(n : Int) else (n : Int), rest)
    else none
  | [] => none

mutual

/-- Parse one JSON value (fuelled recursion; the fuel bounds nesting). -/
def parseJson : Nat → List Char → Option (Json × List Char)
  | 0, _ => none
  | Nat.succ fuel, l =>
    match skipWs l with
    | [] => none
    | c :: rest =>
      if c = dquote then
        match parseStrBody [] rest with
        | some (s, rest2) => some (.str s, rest2)
        | none => none
      else if c = 'n' then
        if listIsPre "ull".data rest then some (.null, rest.drop 3) else none
      else if c = 't' then
        if listIsPre "rue".data rest then some (.bool true, rest.drop 3) else none
      else if c = 'f' then
        if listIsPre "alse".data rest then some (.bool false, rest.drop 4) else none
      else if c = '[' then
        match skipWs rest with
        | d :: rest2 => if d = ']' then some (.arr [], rest2)
                        else match parseElems fuel (d :: rest2) with
                          | some (es, rest3) => some (.arr es, rest3)
                          | none => none
        | [] => none
      else if c = lbrace then
        match skipWs rest with
        | d :: rest2 => if d = rbrace then some (.obj [], rest2)
                        else match parseMembers fuel (d :: rest2) with
                          | some (fs, rest3) => some (.obj fs, rest3)
                          | none => none
        | [] => none
      else
        match parseNum (c :: rest) with
        | some (n, rest2) => some (.num n, rest2)
        | none => none

/-- Parse the elements of a non-empty JSON array, including the closing
bracket. -/
def parseElems : Nat → List Char → Option (List Json × List Char)
  | 0, _ => none
  | Nat.succ fuel, l =>
    match parseJson fuel l with
    | none => none
    | some (v, rest) =>
      match skipWs rest with
      | c :: rest2 =>
        if c = ',' then
          match parseElems fuel rest2 with
          | some (es, rest3) => some (v :: es, rest3)
          | none => none
        else if c = ']' then some ([v], rest2)
        else none
      | [] => none

/-- Parse the members of a non-empty JSON object, including the closing
brace. -/
def parseMembers : Nat → List Char → Option (List (String × Json) × List Char)
  | 0, _ => none
  | Nat.succ fuel, l =>
    match skipWs l with
    | c :: rest =>
      if c = dquote then
        match parseStrBody [] rest with
        | none => none
        | some (k, rest2) =>
          match skipWs rest2 with
          | d :: rest3 =>
            if d = ':' then
              match parseJson fuel rest3 with
              | none => none
              | some (v, rest4) =>
                match skipWs rest4 with
                | e :: rest5 =>
                  if e = ',' then
                    match parseMembers fuel rest5 with
                    | some (fs, rest6) => some ((k, v) :: fs, rest6)
                    | none => none
                  else if e = rbrace then some ([(k, v)], rest5)
                  else none
                | [] => none
            else none
          | [] => none
      else none
    | [] => none

end

/-- The model of `json.loads`: parse one value and require only
whitespace after it. -/
def jsonLoads (s : String) : Option Json :=
  match parseJson (s.length + 1) s.data with
  | some (j, rest) => if skipWs rest = [] then some j else none
  | none => none

mutual

/-- Python `repr(...)` of a decoded JSON payload (string escaping inside
the quotes is not modelled).  Containers render their elements with
`repr`, which is why strings nested inside a dict or list carry single
quotes. -/
def pyRepr : Json → String
  | .null => "None"
  | .bool true => "True"
  | .bool false => "False"
  | .num n => toString n
  | .str s => String.singleton squote ++ s ++ String.singleton squote
  | .arr es => "[" ++ pyReprSeq es ++ "]"
  | .obj fs => String.singleton lbrace ++ pyReprFields fs ++ String.singleton rbrace

/-- Comma-separated `repr` of a list of JSON values. -/
def pyReprSeq : List Json → String
  | [] => ""
  | [j] => pyRepr j
  | j :: rest => pyRepr j ++ ", " ++ pyReprSeq rest

/-- Comma-separated `repr` of the fields of a JSON object. -/
def pyReprFields : List (String × Json) → String
  | [] => ""
  | [(k, v)] => String.singleton squote ++ k ++ String.singleton squote ++ ": " ++ pyRepr v
  | (k, v) :: rest =>
      String.singleton squote ++ k ++ String.singleton squote ++ ": " ++ pyRepr v ++ ", " ++ pyReprFields rest

end

/-- Python `str(...)` of a decoded JSON payload, as interpolated by
`f"{await response.json()}"` on line 77: `str` agrees with `repr` on
every parsed JSON value except a top-level string, which `str` renders
bare, without quotes. -/
def pyStr : Json → String
  | .str s => s
  | j => pyRepr j

/-! ## `_extract_script_json` (lines 513–541)

The regex `JSON\.parse\('(.+?)'\)` is embedded directly: `re.search` finds
the leftmost position where the literal part `JSON.parse('` matches, and
the lazy group takes the shortest non-empty run of non-newline characters
followed by `')`; if no completion exists at a position, the search resumes
at the next position. -/

/-- The literal regex part before the group: `JSON.parse('`. -/
def jpPat : List Char := "JSON.parse(".data ++ [squote]

/-- The lazy group `(.+?)'\)`: consume at least one non-newline character,
then as few further ones as possible until the input continues with
`')`. -/
def scanCapture : List Char → List Char → Option (List Char)
  | _, [] => none
  | acc, c :: rest =>
    if c = '\n' then none
    else
      match rest with
      | q :: p :: _ =>
        if q = squote && p = ')' then some (c :: acc).reverse
        else scanCapture (c :: acc) rest
      | _ => none

/-- `re.search(r"JSON\.parse\('(.+?)'\)", text)`, returning `group(1)`. -/
def findJsonParseArg : List Char → Option (List Char)
  | [] => none
  | l@(_ :: tl) =>
    if listIsPre jpPat l then
      match scanCapture [] (l.drop jpPat.length) with
      | some cap => some cap
      | none => findJsonParseArg tl
    else findJsonParseArg tl

/-- `json_str.replace("\\'", "'")`: left-to-right, non-overlapping. -/
def unescapeQuotes : List Char → List Char
  | a :: b :: rest =>
    if a = '\\' && b = squote then squote :: unescapeQuotes rest
    else a :: unescapeQuotes (b :: rest)
  | l => l

/-- `_extract_script_json`: find the wrapped literal, unescape the quote
markers, decode as JSON; `none` when the pattern is absent or decoding
fails (the `JSONDecodeError` handler). -/
def extractScriptJson (text : String) : Option Json :=
  match findJsonParseArg text.data with
  | none => none
  | some cap => jsonLoads ⟨unescapeQuotes cap⟩

/-! ## `_handle_response` (lines 31–80) -/

/-- The HTML body of a response, flattened to what the classifier reads:
the raw text (for the two substring tests) and the `td` raw texts of
`select_one("div#AlrtmsgsId")` (`none` when that element is absent). -/
structure HtmlBody where
  raw : String
  alertDivTds : Option (List String)

/-- A completed HTTP response: its status, the result of
`await response.json()` (`none` when the body is not JSON, i.e. the call
raises), the body for `await response.text()`, and the reason phrase. -/
structure HttpResponse where
  status : Nat
  jsonBody : Option Json
  body : HtmlBody
  reason : String

/-- A successful classification: parsed JSON or the raw HTML text. -/
inductive HandleValue where
  | jsonData (j : Json)
  | textData (s : String)

/-- How `_handle_response` can fail: `IntegrationAuthError`,
`IntegrationAPIError` (integration name, message, status, error code), the
uncaught `response.json()` decode failure of the final branch, and the
uncaught `AttributeError` when `AlrtmsgsId` occurs in the text but
`select_one` finds no such div. -/
inductive HandleError where
  | authError (msg : String) (status : Nat)
  | apiError (name : String) (msg : String) (status : Nat) (code : String)
  | jsonDecodeError
  | attributeError

def loginTitleMarker : String := "<title>login - provider.bcbsal.org</title>"

/-- `_handle_response`. -/
def handleResponse (r : HttpResponse) : Except HandleError HandleValue :=
  if r.status = 200 then
    match r.jsonBody with
    | some j => .ok (.jsonData j)
    | none =>
      let data := r.body.raw
      if hasSubstr data loginTitleMarker then
        .error (.authError "BCBSAL: Auth failed" 401)
      else if hasSubstr data "AlrtmsgsId" then
        match r.body.alertDivTds with
        | none => .error .attributeError
        | some tds =>
          if tds.length > 0 then
            .error (.apiError "bcbsal"
              ("BCBSAL: API Error: " ++ joinNewlines (tds.map pstrip)) 400 "error")
          else .ok (.textData data)
      else .ok (.textData data)
  else if r.status = 401 then
    .error (.authError "BCBSAL: Auth failed" r.status)
  else if r.status = 400 then
    .error (.apiError "bcbsal" r.reason r.status r.reason)
  else
    match r.jsonBody with
    | some j => .error (.apiError "bcbsal" (pyStr j) r.status r.reason)
    | none => .error .jsonDecodeError

/-! ## `_scan_form_errors` (lines 543–600) -/

/-- One entry of the `errors` dict. -/
inductive FormErrorEntry where
  | general (msg : String)
  | field (msg : String) (value : String) (name : String)
deriving DecidableEq, Repr

/-- The page, flattened to what the scanner reads: the
`get_text(strip=True)` of every `panel-error` element, and the attributes
of every `input.error` element, both in document order. -/
structure FormInput where
  idAttr : Option String := none
  title : Option String := none
  value : Option String := none
  nameAttr : Option String := none
deriving DecidableEq, Repr

structure FormPage where
  panelTexts : List String := []
  errorInputs : List FormInput := []
deriving DecidableEq, Repr

/-- Lines 561–570: each `panel-error` with non-empty text becomes a
numbered `general_error_<n>` entry (the counter advances only on
non-empty panels). -/
def collectGeneralErrorsAux (n : Nat) : List String → List (String × FormErrorEntry)
  | [] => []
  | p :: rest =>
    if p ≠ "" then
      ("general_error_" ++ toString n, .general p) :: collectGeneralErrorsAux (n + 1) rest
    else collectGeneralErrorsAux n rest

def collectGeneralErrors (panels : List String) : List (String × FormErrorEntry) :=
  collectGeneralErrorsAux 0 panels

/-- Lines 573–592: every `input.error` whose `title` attribute is present
(`get('title')` is not `None`) contributes a field entry keyed by its id
(default `"unknown"`), carrying its `value` and `name` (defaults `""`). -/
def collectFieldErrorsAux (errs : List (String × FormErrorEntry)) :
    List FormInput → List (String × FormErrorEntry)
  | [] => errs
  | inp :: rest =>
    match inp.title with
    | none => collectFieldErrorsAux errs rest
    | some msg =>
      collectFieldErrorsAux
        (dset errs (inp.idAttr.getD "unknown")
          (.field msg (inp.value.getD "") (inp.nameAttr.getD ""))) rest

def collectFormErrors (page : FormPage) : List (String × FormErrorEntry) :=
  collectFieldErrorsAux (collectGeneralErrors page.panelTexts) page.errorInputs

/-- The failure of `_scan_form_errors`: an `IntegrationAPIError` carrying
the collected errors mapping (its `json.dumps` serialisation is abstracted
to the mapping itself), the status and the error code. -/
inductive ScanError where
  | apiError (name : String) (errors : List (String × FormErrorEntry))
      (status : Nat) (code : String)
deriving DecidableEq, Repr

/-- `_scan_form_errors`: a pure validation gate — raises when any error
was collected, returns nothing otherwise (lines 594–600). -/
def scanFormErrors (page : FormPage) : Except ScanError Unit :=
  let errors := collectFormErrors page
  if errors ≠ [] then .error (.apiError "bcbsal" errors 400 "request_error")
  else .ok ()

/-! ## The pre-service catalog lookup (lines 281–291) -/

/-- One entry of the procedure-code catalog, with the keys
`_get_pre_service_data` reads via `.get(...)`. -/
structure CodeItem where
  code : Option String := none
  description : Option String := none
  codeType : Option String := none
deriving DecidableEq, Repr

/-- `next((item for item in preservice_codes if item.get("code") == code),
None)` — `code` has already been uppercased by the caller. -/
def findCodeItem (c : String) : List CodeItem → Option CodeItem
  | [] => none
  | item :: rest => if item.code = some c then some item else findCodeItem c rest

/-- Modelled from the spec: the "case-insensitive code match" the spec
describes — both the catalog entry's code and the requested code compared
after uppercasing.  Used only to state the original claim, against the
source-derived `findCodeItem`. -/
def findCodeItemCI (c : String) : List CodeItem → Option CodeItem
  | [] => none
  | item :: rest =>
    if item.code.map pyUpper = some (pyUpper c) then some item
    else findCodeItemCI c rest

/-- Outcome of the early part of `_get_pre_service_data` (given a cached
token and catalog): return `None` for a `None` code, the placeholder
string for an unmatched code, or proceed to the per-code page requests
with the matched catalog item. -/
inductive PreServiceStep where
  | noCode
  | notFound (msg : String)
  | proceed (item : CodeItem)
deriving DecidableEq, Repr

def preServiceLookup (code : Option String) (codesList : List CodeItem) :
    PreServiceStep :=
  match code with
  | none => .noCode
  | some c =>
    let cu := pyUpper c
    match findCodeItem cu codesList with
    | none => .notFound (cu ++ " not found in codes list")
    | some item => .proceed item

/-! ## The pre-service phase of `get_coverage_data` (lines 217–243)

The six coverage panels are parsed before this phase, from responses whose
requests do not depend on `preservice_codes`; the phase is modelled as a
function of the requested codes, recording which network fetches it
performs and the list it appends to. -/

/-- The network fetches of the pre-service phase: the `_get_cache_jwt`
token POST, the `getAllActiveProcedureCodes` catalog GET, and the requests
made for one requested code inside `_get_pre_service_data`. -/
inductive NetCall where
  | cacheJwt
  | getAllActiveProcedureCodes
  | preServiceData (code : String)
deriving DecidableEq, Repr

/-- What one `_get_pre_service_data` call returns for a code (abstracted:
either the placeholder string or the per-code result dict). -/
inductive PreValue where
  | notFoundStr (s : String)
  | dataDict (outpatient : String) (description : Option String) (code : String)
deriving DecidableEq, Repr

/-- Lines 217–228: `None` skips the whole block; a list (even empty)
fetches the token and the catalog once, then calls
`_get_pre_service_data` per code, appending each result. -/
def preservicePhase (codes : Option (List String))
    (perCode : String → PreValue) : List NetCall × List PreValue :=
  match codes with
  | none => ([], [])
  | some cs =>
    (NetCall.cacheJwt :: NetCall.getAllActiveProcedureCodes ::
       cs.map NetCall.preServiceData,
     cs.map perCode)

/-- The value assembled on lines 230–243. -/
structure WorkflowResult where
  coverage : List (String × CoverageResult)
  preservice : List PreValue

/-- Lines 230–243: the final result — the six panel results under their
fixed keys, and the pre-service list from the phase above. -/
def getCoverageDataResult (coverage : List (String × CoverageResult))
    (codes : Option (List String)) (perCode : String → PreValue) :
    WorkflowResult :=
  { coverage := coverage
    preservice := (preservicePhase codes perCode).2 }

/-! ## Concrete fixtures used in the claim theorems -/

/-- A single-quote string, for building test inputs. -/
def sq : String := String.singleton squote

/-- The spec's script-extraction example:
`var x = JSON.parse('{"a":1}');`. -/
def c7input : String := "var x = JSON.parse(" ++ sq ++ "\x7b\"a\":1\x7d" ++ sq ++ ");"

/-- A 200 HTML response whose alert region holds one single, all-blank
`td` cell. -/
def c4resp : HttpResponse :=
  { status := 200, jsonBody := none
    body := { raw := "AlrtmsgsId", alertDivTds := some ["  "] }
    reason := "OK" }

/-- A 500 response whose body is plain text, not JSON. -/
def c6resp : HttpResponse :=
  { status := 500, jsonBody := none
    body := { raw := "oops", alertDivTds := none }
    reason := "Internal Server Error" }

/-- A form page whose only candidate error is an `input.error` with an
empty (but present) `title` attribute. -/
def c5expage : FormPage :=
  { panelTexts := []
    errorInputs := [{ idAttr := some "f1", title := some "", value := some "x",
                      nameAttr := some "fn" }] }

/-- A form page with one blank and one non-blank error panel, one
genuine field error and one error-styled input without a `title`. -/
def c5sample : FormPage :=
  { panelTexts := ["", "Bad input"]
    errorInputs := [{ idAttr := some "inpA", title := some "msg", value := some "v",
                      nameAttr := some "nm" },
                    { idAttr := some "skip", title := none, value := some "q",
                      nameAttr := some "r" }] }

/-- A catalog whose single entry has a lower-case code. -/
def c8catalog : List CodeItem :=
  [{ code := some "abc", description := some "Desc", codeType := some "T" }]

/-- Synthetic 3-row table, row 1 fully labelled, rows 2 and 3 with data
only (blank section and subsection columns). -/
def c1row1 : EbRow :=
  { sectionColPlain := some ⟨["Section1"], "Section1", none⟩
    networkCol := some ⟨["SubA"], "SubA", none⟩
    qtyQualCol := some ⟨["$10"], "$10", none⟩ }

def c1row2 : EbRow := { qtyQualCol := some ⟨[" $20 "], " $20 ", none⟩ }

def c1row3 : EbRow := { qtyQualCol := some ⟨["30%"], "30%", none⟩ }

/-- Row with section `A`, subsection `X` and an amount. -/
def c1x1 : EbRow :=
  { sectionColPlain := some ⟨["A"], "A", none⟩
    networkCol := some ⟨["X"], "X", none⟩
    qtyQualCol := some ⟨["$1"], "$1", none⟩ }

/-- Row with a new section `B`, a blank subsection column and an
amount. -/
def c1x2 : EbRow :=
  { sectionColPlain := some ⟨["B"], "B", none⟩
    qtyQualCol := some ⟨["$2"], "$2", none⟩ }

/-- Row with a section label and an amount, but no subsection column
anywhere in its table. -/
def c2row : EbRow :=
  { sectionColPlain := some ⟨["A"], "A", none⟩
    qtyQualCol := some ⟨["$5"], "$5", none⟩ }

/-- Row carrying a section, subsection and sub-group label but no data
fields at all. -/
def c3row : EbRow :=
  { sectionColPlain := some ⟨["A"], "A", none⟩
    networkCol := some ⟨["X"], "X", none⟩
    covgLevelCol := some ⟨["Indiv"], "Indiv", none⟩ }

/-! ## Lemmas about the dict operations -/

theorem dlookup_dset_self {α : Type} (l : List (String × α)) (k : String) (v : α) :
    dlookup (dset l k v) k = some v := by
  induction l with
  | nil => simp [dset, dlookup]
  | cons kv rest ih =>
    obtain ⟨k', w⟩ := kv
    by_cases h : k' = k
    · subst h; simp [dset, dlookup]
    · simp [dset, dlookup, h, ih]

theorem dlookup_dset_ne {α : Type} (l : List (String × α)) (k k' : String) (v : α)
    (h : k' ≠ k) : dlookup (dset l k v) k' = dlookup l k' := by
  induction l with
  | nil =>
    simp only [dset, dlookup]
    rw [if_neg (fun hh => h hh.symm)]
  | cons kv rest ih =>
    obtain ⟨k'', w⟩ := kv
    by_cases h2 : k'' = k
    · subst h2
      simp only [dset, if_pos rfl, dlookup]
      rw [if_neg (fun hh => h hh.symm), if_neg (fun hh => h hh.symm)]
    · simp only [dset, if_neg h2, dlookup]
      by_cases h3 : k'' = k'
      · rw [if_pos h3, if_pos h3]
      · rw [if_neg h3, if_neg h3, ih]

theorem isSome_dlookup_dset {α : Type} (l : List (String × α)) (k k' : String) (v : α) :
    (dlookup (dset l k v) k').isSome ↔ k' = k ∨ (dlookup l k').isSome := by
  by_cases h : k' = k
  · subst h; simp [dlookup_dset_self]
  · simp [dlookup_dset_ne l k k' v h, h]

theorem dset_ne_nil {α : Type} (l : List (String × α)) (k : String) (v : α) :
    dset l k v ≠ [] := by
  cases l with
  | nil => simp [dset]
  | cons kv rest => obtain ⟨k', w⟩ := kv; simp only [dset]; split <;> simp

/-! ## Lemmas about the substring scan -/

theorem listIsPre_append_left (p q l : List Char)
    (h : listIsPre (p ++ q) l = true) : listIsPre p l = true := by
  induction p generalizing l with
  | nil => simp [listIsPre]
  | cons a as ih =>
    cases l with
    | nil => simp [listIsPre] at h
    | cons b bs =>
      simp only [List.cons_append, listIsPre, Bool.and_eq_true] at h ⊢
      exact ⟨h.1, ih bs h.2⟩

theorem listHasSub_append_left (p q l : List Char)
    (h : listHasSub (p ++ q) l = true) : listHasSub p l = true := by
  induction l with
  | nil =>
    simp only [listHasSub] at h ⊢
    have := listIsPre_append_left p q [] h
    exact this
  | cons b bs ih =>
    simp only [listHasSub, Bool.or_eq_true] at h ⊢
    rcases h with h | h
    · exact Or.inl (listIsPre_append_left p q _ h)
    · exact Or.inr (ih h)

theorem listIsPre_refl_append (p q : List Char) : listIsPre p (p ++ q) = true := by
  induction p with
  | nil => simp [listIsPre]
  | cons a as ih => simp [listIsPre, ih]

theorem listHasSub_of_isPre (p l : List Char) (h : listIsPre p l = true) :
    listHasSub p l = true := by
  cases l with
  | nil => simpa [listHasSub] using h
  | cons b bs => simp [listHasSub, h]

theorem findJsonParseArg_eq_none (l : List Char)
    (h : listHasSub jpPat l = false) : findJsonParseArg l = none := by
  induction l with
  | nil => rfl
  | cons c tl ih =>
    simp only [listHasSub, Bool.or_eq_false_iff] at h
    simp only [findJsonParseArg, h.1, Bool.false_eq_true, if_false]
    exact ih h.2

/-! ## Claim C7 -/

/-- Claim C7: `_extract_script_json` decodes the first
`JSON.parse('...')`-wrapped literal — on
`var x = JSON.parse('{"a":1}');` it returns the mapping `{"a": 1}` — and
returns `None` on any text not containing `JSON.parse(` (never raising:
the embedding is a total function into `Option`). -/
theorem c7_extract_script_json :
    extractScriptJson c7input = some (Json.obj [("a", Json.num 1)]) ∧
    ∀ t : String, hasSubstr t "JSON.parse(" = false → extractScriptJson t = none := by
  constructor
  · rfl
  · intro t h
    have h12 : listHasSub jpPat t.data = false := by
      by_contra hc
      have htrue : listHasSub jpPat t.data = true := by
        cases hx : listHasSub jpPat t.data
        · exact absurd hx hc
        · rfl
      have := listHasSub_append_left "JSON.parse(".data [squote] t.data htrue
      rw [hasSubstr] at h
      rw [h] at this
      exact Bool.noConfusion this
    unfold extractScriptJson
    rw [findJsonParseArg_eq_none t.data h12]

/-- Witness for C7 at a concrete input without the pattern. -/
theorem c7_extract_script_json_witness :
    hasSubstr "hello" "JSON.parse(" = false ∧ extractScriptJson "hello" = none :=
  ⟨rfl, c7_extract_script_json.2 "hello" rfl⟩

/-! ## Claim C4 -/

/-- Claim C4 (amended): on a 200 response whose body is not JSON, is not
the login page, and contains the alert marker with the alert div present,
the classifier raises a validation `APIError` if and only if the alert
region contains at least one `td` cell — empty cells included — and the
message is the prefix `BCBSAL: API Error: ` followed by the trimmed texts
of ALL cells joined by newlines; with no cells at all, the HTML body is
returned. -/
theorem c4_alert_region_classification (raw reason : String) (tds : List String)
    (hlogin : hasSubstr raw loginTitleMarker = false)
    (halert : hasSubstr raw "AlrtmsgsId" = true) :
    (tds = [] →
      handleResponse ⟨200, none, ⟨raw, some tds⟩, reason⟩ = .ok (.textData raw)) ∧
    (tds ≠ [] →
      handleResponse ⟨200, none, ⟨raw, some tds⟩, reason⟩ =
        .error (.apiError "bcbsal"
          ("BCBSAL: API Error: " ++ joinNewlines (tds.map pstrip)) 400 "error")) := by
  constructor
  · intro hnil
    subst hnil
    simp [handleResponse, hlogin, halert]
  · intro hne
    have hlen : 0 < tds.length := List.length_pos.mpr hne
    simp [handleResponse, hlogin, halert, hlen]

/-- Witness for C4 at a concrete response with two non-blank cells. -/
theorem c4_alert_region_classification_witness :
    handleResponse ⟨200, none, ⟨"AlrtmsgsId", some [" e1 ", "e2"]⟩, "OK"⟩ =
      .error (.apiError "bcbsal" ("BCBSAL: API Error: " ++ joinNewlines ["e1", "e2"])
        400 "error") :=
  (c4_alert_region_classification "AlrtmsgsId" "OK" [" e1 ", "e2"] rfl rfl).2
    (by simp)

/-- Counterexample to claim C4 as stated: an alert region whose only cell
is blank has zero non-empty cells, yet the code raises (the claim says no
error is raised when no cell is non-empty). -/
theorem c4_counterexample :
    ((c4resp.body.alertDivTds.getD []).map pstrip).filter (fun s => s ≠ "") = [] ∧
    handleResponse c4resp =
      .error (.apiError "bcbsal" "BCBSAL: API Error: " 400 "error") :=
  ⟨rfl, rfl⟩

/-! ## Claim C6 -/

/-- Claim C6 (amended): for a completed response whose status is not 200,
400 or 401, the classifier raises `APIError` carrying that status with the
`str()`-rendering of the parsed JSON body as message when the body is JSON
(bare for a top-level string, `repr`-style inside containers); when the
body is not JSON, the uncaught `response.json()` decode failure propagates
instead of an `APIError` (there is no text fallback in this branch). -/
theorem c6_other_status_classification (r : HttpResponse)
    (h200 : r.status ≠ 200) (h401 : r.status ≠ 401) (h400 : r.status ≠ 400) :
    (∀ j, r.jsonBody = some j →
      handleResponse r = .error (.apiError "bcbsal" (pyStr j) r.status r.reason)) ∧
    (r.jsonBody = none → handleResponse r = .error .jsonDecodeError) := by
  constructor
  · intro j hj
    simp [handleResponse, h200, h401, h400, hj]
  · intro hn
    simp [handleResponse, h200, h401, h400, hn]

/-- Witness for C6 at a concrete 503 response whose JSON body is the
top-level string `"busy"`: the message is the bare `busy`, without
quotes. -/
theorem c6_other_status_classification_witness :
    handleResponse ⟨503, some (Json.str "busy"), ⟨"", none⟩, "Service Unavailable"⟩ =
      .error (.apiError "bcbsal" "busy" 503 "Service Unavailable") :=
  (c6_other_status_classification ⟨503, some (Json.str "busy"), ⟨"", none⟩,
      "Service Unavailable"⟩ (by simp) (by simp) (by simp)).1
    (Json.str "busy") rfl

/-- Counterexample to claim C6 as stated: a 500 response with a non-JSON
body makes the classification itself fail with the JSON decode error —
no `APIError` with the text body as message is raised. -/
theorem c6_counterexample :
    handleResponse c6resp = .error .jsonDecodeError ∧
    handleResponse c6resp ≠
      .error (.apiError "bcbsal" "oops" 500 "Internal Server Error") := by
  constructor
  · rfl
  · intro h
    rw [show handleResponse c6resp = .error .jsonDecodeError from rfl] at h
    injection h with h
    exact HandleError.noConfusion h

/-! ## Claim C5 -/

theorem collectGeneralErrorsAux_eq_nil (panels : List String) (n : Nat) :
    collectGeneralErrorsAux n panels = [] ↔ ∀ p ∈ panels, p = "" := by
  induction panels generalizing n with
  | nil => simp [collectGeneralErrorsAux]
  | cons p rest ih =>
    by_cases hp : p = ""
    · subst hp
      simp only [collectGeneralErrorsAux, ne_eq, not_true_eq_false, if_false]
      simpa using ih n
    · simp [collectGeneralErrorsAux, hp]

theorem collectFieldErrorsAux_eq_nil (inputs : List FormInput)
    (errs : List (String × FormErrorEntry)) :
    collectFieldErrorsAux errs inputs = [] ↔
      errs = [] ∧ ∀ inp ∈ inputs, inp.title = none := by
  induction inputs generalizing errs with
  | nil => simp [collectFieldErrorsAux]
  | cons inp rest ih =>
    cases ht : inp.title with
    | none =>
      simp only [collectFieldErrorsAux, ht]
      rw [ih errs]
      simp [ht]
    | some msg =>
      simp only [collectFieldErrorsAux, ht]
      rw [ih]
      constructor
      · rintro ⟨habs, -⟩
        exact absurd habs (dset_ne_nil _ _ _)
      · rintro ⟨-, hall⟩
        have := hall inp (by simp)
        rw [ht] at this
        exact Option.noConfusion this

/-- Claim C5 (amended): `_scan_form_errors` collects one numbered
general-error entry per `panel-error` element with non-empty text and one
field-error entry — keyed by the input's id, capturing its value and form
field name — for every `input.error` whose `title` attribute is PRESENT
(an empty `title=""` still produces an entry; only an absent attribute is
skipped); it raises the validation `APIError(status=400)` carrying the
collected mapping iff the combined count is nonzero, and otherwise
returns normally. -/
theorem c5_scan_form_errors :
    (∀ page, scanFormErrors page = .ok () ↔ collectFormErrors page = []) ∧
    (∀ page, collectFormErrors page = [] ↔
      ((∀ p ∈ page.panelTexts, p = "") ∧
       (∀ inp ∈ page.errorInputs, inp.title = none))) ∧
    (∀ page, collectFormErrors page ≠ [] →
      scanFormErrors page =
        .error (.apiError "bcbsal" (collectFormErrors page) 400 "request_error")) ∧
    collectFormErrors c5sample =
      [("general_error_0", .general "Bad input"), ("inpA", .field "msg" "v" "nm")] := by
  refine ⟨fun page => ?_, fun page => ?_, fun page h => ?_, rfl⟩
  · unfold scanFormErrors
    by_cases h : collectFormErrors page = [] <;> simp [h]
  · unfold collectFormErrors collectGeneralErrors
    rw [collectFieldErrorsAux_eq_nil, collectGeneralErrorsAux_eq_nil]
  · unfold scanFormErrors
    simp [h]

/-- Witness for C5: the characterisations applied at an error-free page
and at the sample page. -/
theorem c5_scan_form_errors_witness :
    scanFormErrors { panelTexts := [""], errorInputs := [] } = .ok () ∧
    scanFormErrors c5sample =
      .error (.apiError "bcbsal"
        [("general_error_0", .general "Bad input"), ("inpA", .field "msg" "v" "nm")]
        400 "request_error") := by
  constructor
  · exact (c5_scan_form_errors.1 _).mpr rfl
  · have := c5_scan_form_errors.2.2.1 c5sample (by rw [c5_scan_form_errors.2.2.2]; simp)
    rw [c5_scan_form_errors.2.2.2] at this
    exact this

/-- Counterexample to claim C5 as stated: an `input.error` whose `title`
attribute is present but EMPTY still produces a field entry and makes the
scanner raise, though the claim requires a non-empty title for an entry
(and hence no error here). -/
theorem c5_counterexample :
    (∀ inp ∈ c5expage.errorInputs, inp.title = some "") ∧
    scanFormErrors c5expage =
      .error (.apiError "bcbsal" [("f1", .field "" "x" "fn")] 400 "request_error") := by
  exact ⟨by simp [c5expage], rfl⟩

/-! ## Claim C8 -/

theorem findCodeItem_eq_none (u : String) (catalog : List CodeItem)
    (h : ∀ item ∈ catalog, item.code ≠ some u) : findCodeItem u catalog = none := by
  induction catalog with
  | nil => rfl
  | cons item rest ih =>
    have h1 := h item (by simp)
    simp only [findCodeItem, h1, if_false]
    exact ih (fun it hit => h it (by simp [hit]))

theorem findCodeItem_mem_some (u : String) (catalog : List CodeItem)
    (h : ∃ item ∈ catalog, item.code = some u) :
    ∃ it, findCodeItem u catalog = some it ∧ it.code = some u := by
  induction catalog with
  | nil => simp at h
  | cons item rest ih =>
    by_cases hc : item.code = some u
    · exact ⟨item, by simp [findCodeItem, hc], hc⟩
    · obtain ⟨it, hit, hcode⟩ := h
      rcases List.mem_cons.mp hit with heq | hmem
      · subst heq; exact absurd hcode hc
      · obtain ⟨it', h1, h2⟩ := ih ⟨it, hmem, hcode⟩
        exact ⟨it', by simp [findCodeItem, hc, h1], h2⟩

/-- Claim C8 (amended): the requested code is uppercased and then compared
for exact equality with the catalog entries' codes (case-insensitive only
in the requested code, assuming upper-case catalog codes); a code with no
such exact match yields the `"<CODE> not found in codes list"` placeholder
string — which contains the uppercased code — instead of a failure, and a
code with an exact match proceeds with the matched item. -/
theorem c8_pre_service_lookup (c : String) (catalog : List CodeItem) :
    ((∀ item ∈ catalog, item.code ≠ some (pyUpper c)) →
      preServiceLookup (some c) catalog =
        .notFound (pyUpper c ++ " not found in codes list") ∧
      hasSubstr (pyUpper c ++ " not found in codes list") (pyUpper c) = true) ∧
    ((∃ item ∈ catalog, item.code = some (pyUpper c)) →
      ∃ it, preServiceLookup (some c) catalog = .proceed it ∧
        it.code = some (pyUpper c)) := by
  constructor
  · intro h
    refine ⟨?_, ?_⟩
    · simp [preServiceLookup, findCodeItem_eq_none _ _ h]
    · have : (pyUpper c ++ " not found in codes list").data =
          (pyUpper c).data ++ " not found in codes list".data := rfl
      rw [hasSubstr, this]
      exact listHasSub_of_isPre _ _ (listIsPre_refl_append _ _)
  · intro h
    obtain ⟨it, h1, h2⟩ := findCodeItem_mem_some _ _ h
    exact ⟨it, by simp [preServiceLookup, h1], h2⟩

/-- Witness for C8: a matched and an unmatched lookup against an
upper-case catalog. -/
theorem c8_pre_service_lookup_witness :
    (∃ it, preServiceLookup (some "j1234") [{ code := some "J1234" }] = .proceed it ∧
       it.code = some "J1234") ∧
    preServiceLookup (some "q9") [{ code := some "J1234" }] =
      .notFound "Q9 not found in codes list" := by
  constructor
  · exact (c8_pre_service_lookup "j1234" [{ code := some "J1234" }]).2
      ⟨{ code := some "J1234" }, by simp, rfl⟩
  · exact ((c8_pre_service_lookup "q9" [{ code := some "J1234" }]).1
      (by decide)).1

/-! ## Claim C10 -/

/-- Claim C10: `get_coverage_data` distinguishes `preservice_codes=None`
from `[]`: with `None` the pre-service phase performs no fetches at all;
with `[]` it still fetches the cached JWT and the procedure-code catalog
while performing no per-code lookups; in both cases the result's
`preservice` entry is the empty list and the `coverage` entry is exactly
the six panel results, unaffected. -/
theorem c10_preservice_none_vs_empty
    (cov : List (String × CoverageResult)) (perCode : String → PreValue) :
    preservicePhase none perCode = ([], []) ∧
    preservicePhase (some []) perCode =
      ([NetCall.cacheJwt, NetCall.getAllActiveProcedureCodes], []) ∧
    (∀ cs, (preservicePhase (some cs) perCode).1 =
      NetCall.cacheJwt :: NetCall.getAllActiveProcedureCodes ::
        cs.map NetCall.preServiceData) ∧
    (getCoverageDataResult cov none perCode).coverage = cov ∧
    (getCoverageDataResult cov (some []) perCode).coverage = cov ∧
    (getCoverageDataResult cov none perCode).preservice = [] ∧
    (getCoverageDataResult cov (some []) perCode).preservice = [] :=
  ⟨rfl, rfl, fun _ => rfl, rfl, rfl, rfl, rfl⟩

/-! ## State lemmas for the table-parser stages -/

theorem sectionStage_label_none (st : ParseState) (row : EbRow)
    (h : sectionLabel row = none) : sectionStage st row = st := by
  simp [sectionStage, h]

theorem sectionStage_curSection_some (st : ParseState) (row : EbRow) :
    (sectionStage st row).curSection = none → st.curSection = none := by
  unfold sectionStage
  cases h : sectionLabel row with
  | none => exact fun h2 => h2
  | some s => intro h2; exact Option.noConfusion h2

theorem subsectionStage_ok_curSection (st : ParseState) (row : EbRow)
    (st' : ParseState) (h : subsectionStage st row = .ok st') :
    st'.curSection = st.curSection := by
  unfold subsectionStage at h
  split at h
  · injection h with h; subst h; rfl
  · split at h
    · exact Except.noConfusion h
    · split at h
      · exact Except.noConfusion h
      · split at h <;> (injection h with h; subst h; rfl)

theorem sub2Stage_ok_fields (st : ParseState) (row : EbRow)
    (st' : ParseState) (h : sub2Stage st row = .ok st') :
    st'.curSection = st.curSection ∧ st'.curSubsection = st.curSubsection := by
  unfold sub2Stage at h
  split at h
  · injection h with h; subst h; exact ⟨rfl, rfl⟩
  · split at h
    · split at h
      · exact Except.noConfusion h
      · split at h
        · exact Except.noConfusion h
        · split at h <;> (injection h with h; subst h; exact ⟨rfl, rfl⟩)
    · exact Except.noConfusion h

theorem insertStage_ok_fields (st : ParseState) (row : EbRow)
    (st' : ParseState) (h : insertStage st row = .ok st') :
    st'.curSection = st.curSection ∧ st'.curSubsection = st.curSubsection := by
  unfold insertStage at h
  repeat' split at h
  all_goals
    first
      | exact Except.noConfusion h
      | (injection h with h; subst h; exact ⟨rfl, rfl⟩)

theorem subsectionStage_label_none (st : ParseState) (row : EbRow)
    (h : subsectionLabel row = none) : subsectionStage st row = .ok st := by
  simp [subsectionStage, h]

/-! ## The parser loop invariant

Whenever `current_section` is set, `result[current_section]` exists;
whenever `current_subsection` is set, the chain
`result[current_section][current_subsection]` exists, and whenever
`current_subsection2` is also set, the full chain down to its list
exists.  This is exactly what protects the unguarded dict indexing on
lines 377–378, 404–405 and 461–467 from `KeyError`. -/
structure StInv (st : ParseState) : Prop where
  secOk : ∀ s, st.curSection = some s → (dlookup st.result s).isSome = true
  subOk : ∀ ss, st.curSubsection = some ss →
    ∃ s sec sub, st.curSection = some s ∧ dlookup st.result s = some sec ∧
      dlookup sec ss = some sub ∧
      ∀ x, st.curSubsection2 = some x → (dlookup sub x).isSome = true

theorem initState_inv : StInv initState :=
  ⟨fun _ h => Option.noConfusion h, fun _ h => Option.noConfusion h⟩

theorem sectionStage_inv (st : ParseState) (row : EbRow) (hInv : StInv st) :
    StInv (sectionStage st row) := by
  cases hl : sectionLabel row with
  | none => rw [sectionStage_label_none st row hl]; exact hInv
  | some s =>
    have hdef : sectionStage st row =
        { result := if (dlookup st.result s).isSome then st.result
                    else dset st.result s []
          curSection := some s, curSubsection := none, curSubsection2 := none } := by
      simp [sectionStage, hl]
    rw [hdef]
    refine ⟨?_, ?_⟩
    · intro s' hs'
      injection hs' with hs'
      subst hs'
      by_cases hq : (dlookup st.result s).isSome = true
      · rw [if_pos hq]; exact hq
      · simp only [hq, Bool.false_eq_true, if_false, dlookup_dset_self, Option.isSome_some]
    · intro ss hss
      exact Option.noConfusion hss

theorem subsectionStage_inv (st : ParseState) (row : EbRow) (hInv : StInv st)
    (hsec : st.curSection.isSome = true) :
    ∃ st', subsectionStage st row = .ok st' ∧ StInv st' ∧
      st'.curSection = st.curSection := by
  cases hl : subsectionLabel row with
  | none => exact ⟨st, subsectionStage_label_none st row hl, hInv, rfl⟩
  | some t =>
    obtain ⟨s, hs⟩ := Option.isSome_iff_exists.mp hsec
    obtain ⟨sec, hsec2⟩ := Option.isSome_iff_exists.mp (hInv.secOk s hs)
    cases hq : dlookup sec t with
    | some sub =>
      refine ⟨{ st with curSubsection := some t, curSubsection2 := none },
        by simp [subsectionStage, hl, hs, hsec2, hq], ⟨?_, ?_⟩, rfl⟩
      · intro s' hs'
        exact hInv.secOk s' hs'
      · intro ss hss
        injection hss with hss
        subst hss
        exact ⟨s, sec, sub, hs, hsec2, hq, fun x hx => Option.noConfusion hx⟩
    | none =>
      refine ⟨{ st with result := dset st.result s (dset sec t [])
                        curSubsection := some t, curSubsection2 := none },
        by simp [subsectionStage, hl, hs, hsec2, hq], ⟨?_, ?_⟩, rfl⟩
      · intro s' hs'
        have hs'2 : st.curSection = some s' := hs'
        rw [hs] at hs'2
        injection hs'2 with hs'2
        subst hs'2
        simp [dlookup_dset_self]
      · intro ss hss
        injection hss with hss
        subst hss
        exact ⟨s, dset sec t [], [], hs, dlookup_dset_self _ _ _,
          dlookup_dset_self _ _ _, fun x hx => Option.noConfusion hx⟩

theorem sub2Stage_inv (st : ParseState) (row : EbRow) (hInv : StInv st)
    (hsub : st.curSubsection.isSome = true) :
    ∃ st', sub2Stage st row = .ok st' ∧ StInv st' ∧
      st'.curSubsection = st.curSubsection := by
  cases hl : subsection2Text row with
  | none => exact ⟨st, by simp [sub2Stage, hl], hInv, rfl⟩
  | some x =>
    obtain ⟨ss, hss⟩ := Option.isSome_iff_exists.mp hsub
    obtain ⟨s, sec, sub, hs, hsec2, hsub2, hx2⟩ := hInv.subOk ss hss
    cases hq : dlookup sub x with
    | some lst =>
      refine ⟨{ st with curSubsection2 := some x },
        by simp [sub2Stage, hl, hs, hss, hsec2, hsub2, hq], ⟨?_, ?_⟩, rfl⟩
      · intro s' hs'
        exact hInv.secOk s' hs'
      · intro ss' hss'
        have : st.curSubsection = some ss' := hss'
        rw [hss] at this
        injection this with this
        subst this
        refine ⟨s, sec, sub, hs, hsec2, hsub2, ?_⟩
        intro x' hx'
        injection hx' with hx'
        subst hx'
        simp [hq]
    | none =>
      refine ⟨{ st with
          result := dset st.result s (dset sec ss (dset sub x []))
          curSubsection2 := some x },
        by simp [sub2Stage, hl, hs, hss, hsec2, hsub2, hq], ⟨?_, ?_⟩, rfl⟩
      · intro s' hs'
        have hs'2 : st.curSection = some s' := hs'
        rw [hs] at hs'2
        injection hs'2 with hs'2
        subst hs'2
        simp [dlookup_dset_self]
      · intro ss' hss'
        have : st.curSubsection = some ss' := hss'
        rw [hss] at this
        injection this with this
        subst this
        refine ⟨s, dset sec ss (dset sub x []), dset sub x [], hs,
          dlookup_dset_self _ _ _, dlookup_dset_self _ _ _, ?_⟩
        intro x' hx'
        injection hx' with hx'
        subst hx'
        simp [dlookup_dset_self]

theorem insertStage_inv (st : ParseState) (row : EbRow) (hInv : StInv st)
    (hsub : st.curSubsection.isSome = true) :
    ∃ st', insertStage st row = .ok st' ∧ StInv st' := by
  by_cases hmt : (rowData row).isEmptyD = true
  · exact ⟨st, by simp [insertStage, hmt], hInv⟩
  · obtain ⟨ss, hss⟩ := Option.isSome_iff_exists.mp hsub
    obtain ⟨s, sec, sub, hs, hsec2, hsub2, hx2⟩ := hInv.subOk ss hss
    cases hc2 : st.curSubsection2 with
    | some x =>
      obtain ⟨lst, hlst⟩ := Option.isSome_iff_exists.mp (hx2 x hc2)
      refine ⟨{ st with
          result := dset st.result s (dset sec ss (dset sub x (lst ++ [rowData row]))) },
        by simp [insertStage, hmt, hs, hss, hsec2, hsub2, hc2, hlst], ⟨?_, ?_⟩⟩
      · intro s' hs'
        have hs'2 : st.curSection = some s' := hs'
        rw [hs] at hs'2
        injection hs'2 with hs'2
        subst hs'2
        simp [dlookup_dset_self]
      · intro ss' hss'
        have : st.curSubsection = some ss' := hss'
        rw [hss] at this
        injection this with this
        subst this
        refine ⟨s, dset sec ss (dset sub x (lst ++ [rowData row])),
          dset sub x (lst ++ [rowData row]), hs,
          dlookup_dset_self _ _ _, dlookup_dset_self _ _ _, ?_⟩
        intro x' hx'
        have : st.curSubsection2 = some x' := hx'
        rw [hc2] at this
        injection this with this
        subst this
        simp [dlookup_dset_self]
    | none =>
      refine ⟨{ st with
          result := dset st.result s (dset sec ss
            (dset sub ((programText row).getD "Other")
              ((dlookup sub ((programText row).getD "Other")).getD [] ++ [rowData row]))) },
        by simp [insertStage, hmt, hs, hss, hsec2, hsub2, hc2], ⟨?_, ?_⟩⟩
      · intro s' hs'
        have hs'2 : st.curSection = some s' := hs'
        rw [hs] at hs'2
        injection hs'2 with hs'2
        subst hs'2
        simp [dlookup_dset_self]
      · intro ss' hss'
        have : st.curSubsection = some ss' := hss'
        rw [hss] at this
        injection this with this
        subst this
        refine ⟨s, _, _, hs, dlookup_dset_self _ _ _, dlookup_dset_self _ _ _, ?_⟩
        intro x' hx'
        have : st.curSubsection2 = some x' := hx'
        rw [hc2] at this
        exact Option.noConfusion this

theorem processRow_inv (st : ParseState) (row : EbRow) (hInv : StInv st) :
    ∃ st', processRow st row = .ok st' ∧ StInv st' := by
  have hInv1 : StInv (sectionStage st row) := sectionStage_inv st row hInv
  cases hc1 : (sectionStage st row).curSection with
  | none => exact ⟨sectionStage st row, by simp [processRow, hc1], hInv1⟩
  | some s =>
    obtain ⟨st2, h2, hInv2, hpre2⟩ :=
      subsectionStage_inv (sectionStage st row) row hInv1 (by rw [hc1]; rfl)
    cases hc2 : st2.curSubsection with
    | none => exact ⟨st2, by simp [processRow, hc1, h2, hc2], hInv2⟩
    | some ss =>
      obtain ⟨st3, h3, hInv3, hsub3⟩ :=
        sub2Stage_inv st2 row hInv2 (by rw [hc2]; rfl)
      obtain ⟨st4, h4, hInv4⟩ :=
        insertStage_inv st3 row hInv3 (by rw [hsub3, hc2]; rfl)
      exact ⟨st4, by simp [processRow, hc1, h2, hc2, h3, h4], hInv4⟩

theorem parseRows_inv (rows : List EbRow) (st : ParseState) (hInv : StInv st) :
    ∃ st', parseRows st rows = .ok st' ∧ StInv st' := by
  induction rows generalizing st with
  | nil => exact ⟨st, rfl, hInv⟩
  | cons r rs ih =>
    obtain ⟨st1, h1, hInv1⟩ := processRow_inv st r hInv
    obtain ⟨st', h', hInv'⟩ := ih st1 hInv1
    exact ⟨st', by simp [parseRows, h1, h'], hInv'⟩

/-! ## Claim C9 -/

/-- Claim C9 (amended): `_parse_insurance_table` never raises when given
an actual table element — the parse of any row list succeeds — but for
the absent-panel input produced when the panel selector finds nothing
(`None`), it raises `AttributeError` instead of degrading gracefully. -/
theorem c9_parse_total_on_elements (rows : List EbRow) :
    ∃ res, parseInsuranceTableOpt (some rows) = .ok res := by
  obtain ⟨st', h, _⟩ := parseRows_inv rows initState initState_inv
  exact ⟨st'.result, by simp [parseInsuranceTableOpt, parseInsuranceTable, h, Except.map]⟩

/-- Counterexample to claim C9 as stated: the absent-element case (a
missing coverage panel) raises `AttributeError` rather than degrading to
empty values. -/
theorem c9_counterexample :
    parseInsuranceTableOpt none = .error .attributeError := rfl

/-! ## Row-level state lemmas for claims C1 and C2 -/

theorem processRow_curSection_eq (st : ParseState) (row : EbRow) (st' : ParseState)
    (hl : sectionLabel row = none) (h : processRow st row = .ok st') :
    st'.curSection = st.curSection := by
  rw [show processRow st row =
      (match (sectionStage st row).curSection with
       | none => Except.ok (sectionStage st row)
       | some _ =>
         match subsectionStage (sectionStage st row) row with
         | .error e => .error e
         | .ok st2 =>
           match st2.curSubsection with
           | none => .ok st2
           | some _ =>
             match sub2Stage st2 row with
             | .error e => .error e
             | .ok st3 => insertStage st3 row) from rfl] at h
  rw [sectionStage_label_none st row hl] at h
  cases hc : st.curSection with
  | none =>
    simp only [hc] at h
    injection h with h
    subst h
    exact hc
  | some s =>
    simp only [hc] at h
    cases hs2 : subsectionStage st row with
    | error e =>
      simp only [hs2] at h
      exact Except.noConfusion h
    | ok st2 =>
      simp only [hs2] at h
      have hpre2 : st2.curSection = st.curSection :=
        subsectionStage_ok_curSection st row st2 hs2
      cases hc2 : st2.curSubsection with
      | none =>
        simp only [hc2] at h
        injection h with h
        subst h
        rw [hpre2]
        exact hc
      | some ss =>
        simp only [hc2] at h
        cases h3 : sub2Stage st2 row with
        | error e =>
          simp only [h3] at h
          exact Except.noConfusion h
        | ok st3 =>
          simp only [h3] at h
          have hf3 := sub2Stage_ok_fields st2 row st3 h3
          have hf4 := insertStage_ok_fields st3 row st' h
          rw [hf4.1, hf3.1, hpre2]
          exact hc

theorem processRow_curSubsection_eq (st : ParseState) (row : EbRow) (st' : ParseState)
    (hl : sectionLabel row = none) (hl2 : subsectionLabel row = none)
    (h : processRow st row = .ok st') :
    st'.curSubsection = st.curSubsection := by
  rw [show processRow st row =
      (match (sectionStage st row).curSection with
       | none => Except.ok (sectionStage st row)
       | some _ =>
         match subsectionStage (sectionStage st row) row with
         | .error e => .error e
         | .ok st2 =>
           match st2.curSubsection with
           | none => .ok st2
           | some _ =>
             match sub2Stage st2 row with
             | .error e => .error e
             | .ok st3 => insertStage st3 row) from rfl] at h
  rw [sectionStage_label_none st row hl] at h
  cases hc : st.curSection with
  | none =>
    simp only [hc] at h
    injection h with h
    subst h
    rfl
  | some s =>
    simp only [hc, subsectionStage_label_none st row hl2] at h
    cases hc2 : st.curSubsection with
    | none =>
      simp only [hc2] at h
      injection h with h
      subst h
      exact hc2
    | some ss =>
      simp only [hc2] at h
      cases h3 : sub2Stage st row with
      | error e =>
        simp only [h3] at h
        exact Except.noConfusion h
      | ok st3 =>
        simp only [h3] at h
        have hf3 := sub2Stage_ok_fields st row st3 h3
        have hf4 := insertStage_ok_fields st3 row st' h
        rw [hf4.2, hf3.2]
        exact hc2

theorem processRow_skip_preSection (st : ParseState) (row : EbRow)
    (hc : st.curSection = none) (hl : sectionLabel row = none) :
    processRow st row = .ok st := by
  simp [processRow, sectionStage_label_none st row hl, hc]

theorem processRow_skip_noSubsection (st : ParseState) (row : EbRow)
    (hl2 : subsectionLabel row = none)
    (hcs : (sectionStage st row).curSubsection = none) :
    processRow st row = .ok (sectionStage st row) := by
  cases hc1 : (sectionStage st row).curSection with
  | none => simp [processRow, hc1]
  | some s =>
    simp [processRow, hc1, subsectionStage_label_none (sectionStage st row) row hl2, hcs]

/-! ## Claim C1 -/

/-- Claim C1 (amended): iterating rows in document order, a row whose
section column is blank keeps the current section; a row whose section
and subsection columns are BOTH blank keeps the current subsection (a row
carrying a new section label resets the subsection to none instead of
letting the previous one be inherited); every row preceding the first
section label leaves the state and result untouched; and on the synthetic
3-row table where rows 2 and 3 omit the section/subsection columns, their
extracted fields land under row 1's section and subsection. -/
theorem c1_section_subsection_inheritance :
    (∀ (st : ParseState) (row : EbRow) (st' : ParseState),
       sectionLabel row = none → processRow st row = .ok st' →
       st'.curSection = st.curSection) ∧
    (∀ (st : ParseState) (row : EbRow) (st' : ParseState),
       sectionLabel row = none → subsectionLabel row = none →
       processRow st row = .ok st' → st'.curSubsection = st.curSubsection) ∧
    (∀ (st : ParseState) (row : EbRow),
       st.curSection = none → sectionLabel row = none →
       processRow st row = .ok st) ∧
    parseInsuranceTable [c1row1, c1row2, c1row3] =
      .ok [("Section1", [("SubA", [("Other",
        [{ amount := some "$10" }, { amount := some "$20" },
         { percentage := some "30%" }])])])] :=
  ⟨processRow_curSection_eq, processRow_curSubsection_eq,
   processRow_skip_preSection, rfl⟩

/-- Witness for C1: the skip clause applied to a data-only row from the
initial (pre-header) state. -/
theorem c1_section_subsection_inheritance_witness :
    initState.curSection = none ∧ sectionLabel c1row2 = none ∧
    subsectionLabel c1row2 = none ∧
    processRow initState c1row2 = .ok initState :=
  ⟨rfl, rfl, rfl,
   c1_section_subsection_inheritance.2.2.1 initState c1row2 rfl rfl⟩

/-- Counterexample to claim C1 as stated: row 2 has a blank subsection
column and the most recent non-empty subsection is `X`, but because row 2
carries a new section label `B` the subsection is reset rather than
inherited — row 2's fields (it does carry an amount) land nowhere, and
section `B` stays empty. -/
theorem c1_counterexample :
    sectionLabel c1x2 = some "B" ∧ subsectionLabel c1x2 = none ∧
    (rowData c1x2).isEmptyD = false ∧
    parseInsuranceTable [c1x1, c1x2] =
      .ok [("A", [("X", [("Other", [{ amount := some "$1" }])])]), ("B", [])] :=
  ⟨rfl, rfl, rfl, rfl⟩

/-! ## Claim C2 -/

/-- Claim C2 (amended): a row processed with a current section but no
current subsection is skipped entirely — beyond the section-label
bookkeeping of `sectionStage` (which can only register a new, empty
section), none of its extracted fields are stored anywhere (they are NOT
folded onto the section-level mapping). -/
theorem c2_no_subsection_rows_skipped :
    (∀ (st : ParseState) (row : EbRow),
       subsectionLabel row = none →
       (sectionStage st row).curSubsection = none →
       processRow st row = .ok (sectionStage st row)) ∧
    (∀ (st : ParseState) (row : EbRow),
       sectionLabel row = none → sectionStage st row = st) :=
  ⟨processRow_skip_noSubsection, sectionStage_label_none⟩

/-- Witness for C2: a section-labelled row with data but no subsection,
processed from the initial state, produces only the empty section entry. -/
theorem c2_no_subsection_rows_skipped_witness :
    subsectionLabel c2row = none ∧
    (sectionStage initState c2row).curSubsection = none ∧
    processRow initState c2row = .ok (sectionStage initState c2row) ∧
    (sectionStage initState c2row).result = [("A", [])] :=
  ⟨rfl, rfl, c2_no_subsection_rows_skipped.1 initState c2row rfl rfl, rfl⟩

/-- Counterexample to claim C2 as stated: a row with a current section,
no subsection and a non-empty amount field contributes nothing — the
result holds only the empty section mapping, with the row's fields
nowhere (not folded onto the section level). -/
theorem c2_counterexample :
    (rowData c2row).isEmptyD = false ∧
    parseInsuranceTable [c2row] = .ok [("A", [])] :=
  ⟨rfl, rfl⟩

/-! ## Key-provenance lemmas and claim C3 -/

theorem sectionStage_keys (st : ParseState) (row : EbRow) (k : String)
    (h : (dlookup (sectionStage st row).result k).isSome = true) :
    (dlookup st.result k).isSome = true ∨ sectionLabel row = some k := by
  cases hl : sectionLabel row with
  | none => rw [sectionStage_label_none st row hl] at h; exact Or.inl h
  | some s =>
    simp only [sectionStage, hl] at h
    by_cases hq : (dlookup st.result s).isSome = true
    · rw [if_pos hq] at h
      exact Or.inl h
    · rw [if_neg hq] at h
      rcases (isSome_dlookup_dset st.result s k []).mp h with hk | hk
      · subst hk; exact Or.inr rfl
      · exact Or.inl hk

theorem subsectionStage_keys (st : ParseState) (row : EbRow) (st' : ParseState)
    (h : subsectionStage st row = .ok st') (k : String)
    (hk : (dlookup st'.result k).isSome = true) :
    (dlookup st.result k).isSome = true := by
  cases hl : subsectionLabel row with
  | none =>
    rw [subsectionStage_label_none st row hl] at h
    injection h with h
    subst h
    exact hk
  | some t =>
    cases hc : st.curSection with
    | none =>
      simp only [subsectionStage, hl, hc] at h
      exact Except.noConfusion h
    | some s =>
      cases hsec : dlookup st.result s with
      | none =>
        simp only [subsectionStage, hl, hc, hsec] at h
        exact Except.noConfusion h
      | some sec =>
        cases hq : dlookup sec t with
        | some sub =>
          simp only [subsectionStage, hl, hc, hsec, hq] at h
          injection h with h
          subst h
          exact hk
        | none =>
          simp only [subsectionStage, hl, hc, hsec, hq] at h
          injection h with h
          subst h
          rcases (isSome_dlookup_dset st.result s k (dset sec t [])).mp hk with hks | hks
          · subst hks; rw [hsec]; rfl
          · exact hks

theorem sub2Stage_keys (st : ParseState) (row : EbRow) (st' : ParseState)
    (h : sub2Stage st row = .ok st') (k : String)
    (hk : (dlookup st'.result k).isSome = true) :
    (dlookup st.result k).isSome = true := by
  cases hl : subsection2Text row with
  | none =>
    simp only [sub2Stage, hl] at h
    injection h with h
    subst h
    exact hk
  | some x =>
    cases hc : st.curSection with
    | none =>
      simp only [sub2Stage, hl, hc] at h
      exact Except.noConfusion h
    | some s =>
      cases hc2 : st.curSubsection with
      | none =>
        simp only [sub2Stage, hl, hc, hc2] at h
        exact Except.noConfusion h
      | some ss =>
        cases hsec : dlookup st.result s with
        | none =>
          simp only [sub2Stage, hl, hc, hc2, hsec] at h
          exact Except.noConfusion h
        | some sec =>
          cases hsub : dlookup sec ss with
          | none =>
            simp only [sub2Stage, hl, hc, hc2, hsec, hsub] at h
            exact Except.noConfusion h
          | some sub =>
            cases hq : dlookup sub x with
            | some lst =>
              simp only [sub2Stage, hl, hc, hc2, hsec, hsub, hq] at h
              injection h with h
              subst h
              exact hk
            | none =>
              simp only [sub2Stage, hl, hc, hc2, hsec, hsub, hq] at h
              injection h with h
              subst h
              rcases (isSome_dlookup_dset st.result s k
                  (dset sec ss (dset sub x []))).mp hk with hks | hks
              · subst hks; rw [hsec]; rfl
              · exact hks

theorem insertStage_keys (st : ParseState) (row : EbRow) (st' : ParseState)
    (h : insertStage st row = .ok st') (k : String)
    (hk : (dlookup st'.result k).isSome = true) :
    (dlookup st.result k).isSome = true := by
  by_cases hmt : (rowData row).isEmptyD = true
  · simp only [insertStage, hmt, if_true] at h
    injection h with h
    subst h
    exact hk
  · cases hc : st.curSection with
    | none =>
      simp only [insertStage, hmt, hc] at h
      exact Except.noConfusion h
    | some s =>
      cases hc2 : st.curSubsection with
      | none =>
        simp only [insertStage, hmt, hc, hc2] at h
        exact Except.noConfusion h
      | some ss =>
        cases hsec : dlookup st.result s with
        | none =>
          simp only [insertStage, hmt, hc, hc2, hsec] at h
          exact Except.noConfusion h
        | some sec =>
          cases hsub : dlookup sec ss with
          | none =>
            simp only [insertStage, hmt, hc, hc2, hsec, hsub] at h
            exact Except.noConfusion h
          | some sub =>
            cases hx : st.curSubsection2 with
            | some x =>
              cases hq : dlookup sub x with
              | none =>
                simp only [insertStage, hmt, hc, hc2, hsec, hsub, hx, hq] at h
                exact Except.noConfusion h
              | some lst =>
                simp only [insertStage, hmt, hc, hc2, hsec, hsub, hx, hq] at h
                injection h with h
                subst h
                rcases (isSome_dlookup_dset st.result s k
                    (dset sec ss (dset sub x (lst ++ [rowData row])))).mp hk with hks | hks
                · subst hks; rw [hsec]; rfl
                · exact hks
            | none =>
              simp only [insertStage, hmt, hc, hc2, hsec, hsub, hx] at h
              injection h with h
              subst h
              rcases (isSome_dlookup_dset st.result s k _).mp hk with hks | hks
              · subst hks; rw [hsec]; rfl
              · exact hks

theorem processRow_keys (st : ParseState) (row : EbRow) (st' : ParseState)
    (h : processRow st row = .ok st') (k : String)
    (hk : (dlookup st'.result k).isSome = true) :
    (dlookup st.result k).isSome = true ∨ sectionLabel row = some k := by
  rw [show processRow st row =
      (match (sectionStage st row).curSection with
       | none => Except.ok (sectionStage st row)
       | some _ =>
         match subsectionStage (sectionStage st row) row with
         | .error e => .error e
         | .ok st2 =>
           match st2.curSubsection with
           | none => .ok st2
           | some _ =>
             match sub2Stage st2 row with
             | .error e => .error e
             | .ok st3 => insertStage st3 row) from rfl] at h
  cases hc1 : (sectionStage st row).curSection with
  | none =>
    simp only [hc1] at h
    injection h with h
    subst h
    exact sectionStage_keys st row k hk
  | some s =>
    simp only [hc1] at h
    cases hs2 : subsectionStage (sectionStage st row) row with
    | error e =>
      simp only [hs2] at h
      exact Except.noConfusion h
    | ok st2 =>
      simp only [hs2] at h
      cases hc2 : st2.curSubsection with
      | none =>
        simp only [hc2] at h
        injection h with h
        subst h
        exact sectionStage_keys st row k (subsectionStage_keys _ row st2 hs2 k hk)
      | some ss =>
        simp only [hc2] at h
        cases h3 : sub2Stage st2 row with
        | error e =>
          simp only [h3] at h
          exact Except.noConfusion h
        | ok st3 =>
          simp only [h3] at h
          exact sectionStage_keys st row k
            (subsectionStage_keys _ row st2 hs2 k
              (sub2Stage_keys st2 row st3 h3 k
                (insertStage_keys st3 row st' h k hk)))

theorem parseRows_keys (rows : List EbRow) (st st' : ParseState)
    (h : parseRows st rows = .ok st') (k : String)
    (hk : (dlookup st'.result k).isSome = true) :
    (dlookup st.result k).isSome = true ∨ ∃ row ∈ rows, sectionLabel row = some k := by
  induction rows generalizing st with
  | nil =>
    simp only [parseRows] at h
    injection h with h
    subst h
    exact Or.inl hk
  | cons r rs ih =>
    cases hpr : processRow st r with
    | error e =>
      simp only [parseRows, hpr] at h
      exact Except.noConfusion h
    | ok st1 =>
      simp only [parseRows, hpr] at h
      rcases ih st1 h with h1 | ⟨row, hrow, hlab⟩
      · rcases processRow_keys st r st1 hpr k h1 with h2 | h2
        · exact Or.inl h2
        · exact Or.inr ⟨r, by simp, h2⟩
      · exact Or.inr ⟨row, by simp [hrow], hlab⟩

/-- Claim C3 (amended): a mapping key is created in the Coverage Result
the first time its LABEL is encountered on a surviving row — not the
first time data is inserted beneath it — so empty section, subsection and
sub-group containers can remain; what does hold is that every top-level
key of the result is the section label of some row of the table. -/
theorem c3_keys_from_labels (rows : List EbRow) (res : CoverageResult)
    (h : parseInsuranceTable rows = .ok res) (k : String)
    (hk : (dlookup res k).isSome = true) :
    ∃ row ∈ rows, sectionLabel row = some k := by
  unfold parseInsuranceTable at h
  cases hpr : parseRows initState rows with
  | error e =>
    rw [hpr] at h
    exact Except.noConfusion h
  | ok st' =>
    rw [hpr] at h
    have hres : st'.result = res := by simpa [Except.map] using h
    rcases parseRows_keys rows initState st' hpr k (by rw [hres]; exact hk) with h1 | h2
    · exact absurd h1 (by simp [initState, dlookup])
    · exact h2

/-- Witness for C3: applied to a one-row table. -/
theorem c3_keys_from_labels_witness :
    ∃ row ∈ [c1x1], sectionLabel row = some "A" :=
  c3_keys_from_labels [c1x1]
    [("A", [("X", [("Other", [{ amount := some "$1" }])])])] rfl "A" rfl

/-- Counterexample to claim C3 as stated: a row carrying only labels (no
data fields) leaves a fully empty container chain in the result — the
keys `A`, `X` and `Indiv` exist with no row entry stored under any of
them. -/
theorem c3_counterexample :
    (rowData c3row).isEmptyD = true ∧
    parseInsuranceTable [c3row] = .ok [("A", [("X", [("Indiv", [])])])] :=
  ⟨rfl, rfl⟩

/-- Counterexample to claim C8 as stated: for a catalog entry whose code
is lower-case, a case-insensitive match (the spec-modelled
`findCodeItemCI`) finds it even for the literally identical request, yet
the code reports it not found, because only the requested side is
uppercased before an exact comparison. -/
theorem c8_counterexample :
    findCodeItemCI "abc" c8catalog =
      some { code := some "abc", description := some "Desc", codeType := some "T" } ∧
    preServiceLookup (some "abc") c8catalog =
      .notFound "ABC not found in codes list" :=
  ⟨rfl, rfl⟩
